import Mathlib

/-!
Verification development for the Alphabot IA sales-analysis core.

The TypeScript source is shallowly embedded:
* JS numbers on the data path are modelled as `ℚ` (revenues, prices) and
  `Int`/`Nat` (quantities, years, months); the one place where JS float
  semantics is observable (division by zero in the growth computation,
  where JS produces `Infinity`/`NaN` and `toFixed` stringifies it) is
  modelled explicitly in `growthPct`.
* JS objects with possibly-missing properties become structures with
  `Option` fields; `undefined` is `none`.
* `Array.prototype.sort` (required to be stable by the spec) is modelled
  by a stable insertion sort `stableSort`.
* JS `Map` (insertion-ordered) is modelled by an association list built
  with `upsert` / `groupFold`.
* The one reachable runtime exception of `analyzeData`
  (`mes.toString()` on an `undefined` month bucket) is modelled by
  returning `Except.error`.
-/

namespace Alphabot

-- Batteries marks the rational operations irreducible, which blocks
-- kernel evaluation of concrete analyses; restore reducibility for
-- this development.
attribute [local semireducible] Rat.add Rat.mul Rat.inv Rat.sub

/-! ## Generic list machinery -/

/-- Stable insertion of `a` into `l`: `a` is placed before the first
element `b` with `le a b`.  Used to model JS stable `Array.sort`. -/
def insertDesc (le : α → α → Bool) (a : α) : List α → List α
  | [] => [a]
  | b :: bs => if le a b then a :: b :: bs else b :: insertDesc le a bs

/-- Stable sort (insertion sort) with respect to a boolean relation
`le x y` = "x may come before y". -/
def stableSort (le : α → α → Bool) : List α → List α
  | [] => []
  | a :: as => insertDesc le a (stableSort le as)

/-- First-seen deduplication, i.e. the semantics of JS
`[...new Set(arr)]`: keep the first occurrence of every element. -/
def firstSeen [DecidableEq κ] : List κ → List κ
  | [] => []
  | k :: ks => k :: (firstSeen ks).filter (fun x => x ≠ k)

/-- Insert-or-update in an insertion-ordered association list, the
semantics of the JS `Map` pattern
`if (!m.has(k)) m.set(k, z); mutate(m.get(k))`. -/
def upsert [DecidableEq κ] (k : κ) (upd : σ → σ) (z : σ) :
    List (κ × σ) → List (κ × σ)
  | [] => [(k, upd z)]
  | (k₂, v) :: rest =>
    if k = k₂ then (k₂, upd v) :: rest else (k₂, v) :: upsert k upd z rest

/-- Fold a data list into an insertion-ordered grouped association list,
the semantics of the JS `Map`-based grouping loops in `analyzeData`. -/
def groupFold [DecidableEq κ] (key : α → κ) (upd : α → σ → σ) (z : σ)
    (data : List α) : List (κ × σ) :=
  data.foldl (fun acc a => upsert (key a) (upd a) z acc) []

/-- Aggregate the rows of `data` whose key is `k`, starting from `v`. -/
def collect [DecidableEq κ] (key : α → κ) (upd : α → σ → σ) (k : κ)
    (data : List α) (v : σ) : σ :=
  (data.filter (fun a => key a = k)).foldl (fun s a => upd a s) v

/-- `List.map` through `Except`, stopping at the first error; the
semantics of a JS `Array.map` whose callback can throw. -/
def mapExcept (f : α → Except ε β) : List α → Except ε (List β)
  | [] => .ok []
  | a :: rest =>
    match f a with
    | .error e => .error e
    | .ok b =>
      match mapExcept f rest with
      | .error e => .error e
      | .ok bs => .ok (b :: bs)

/-- Split a character list on a separator character (every occurrence),
like the anchored structure of the date regexes. -/
def splitOnChar (c : Char) : List Char → List (List Char)
  | [] => [[]]
  | x :: xs =>
    match splitOnChar c xs with
    | [] => [[]]
    | g :: gs => if x = c then [] :: g :: gs else (x :: g) :: gs

/-- Is `nd` a contiguous substring of the second list?  The semantics of
JS `String.prototype.includes`. -/
def containsSub (nd : List Char) : List Char → Bool
  | [] => nd.isEmpty
  | c :: cs => nd.isPrefixOf (c :: cs) || containsSub nd cs

/-- Lexicographic (code-point) comparison of character lists, the
ordering JS uses to compare strings. -/
def lexLe : List Char → List Char → Bool
  | [], _ => true
  | _ :: _, [] => false
  | a :: as, b :: bs => if a = b then lexLe as bs else decide (a < b)

/-! ## JS primitive semantics -/

/-- The whitespace characters relevant to JS `trim` / `\s` on the data
this program handles. -/
def jsIsWs (c : Char) : Bool :=
  c = ' ' || c = '\t' || c = '\n' || c = '\r'

/-- JS `String.prototype.trim`. -/
def trimChars (l : List Char) : List Char :=
  ((l.dropWhile jsIsWs).reverse.dropWhile jsIsWs).reverse

/-- JS `String.prototype.toLowerCase` (character-wise). -/
def jsToLower (s : String) : String :=
  String.mk (s.toList.map Char.toLower)

/-- JS word character (`\w` / the characters defining `\b`). -/
def isWordChar (c : Char) : Bool :=
  ('a' ≤ c && c ≤ 'z') || ('A' ≤ c && c ≤ 'Z') || ('0' ≤ c && c ≤ '9') || c = '_'

/-- Decimal value of a digit string. -/
def digitsToNat (l : List Char) : Nat :=
  l.foldl (fun a c => a * 10 + (c.toNat - '0'.toNat)) 0

/-- Leading digit run of `l` as a number, `none` when there is none. -/
def leadingDigits (l : List Char) : Option Nat :=
  let ds := l.takeWhile Char.isDigit
  if ds.isEmpty then none else some (digitsToNat ds)

/-- JS `parseInt` on a string (decimal): skip leading whitespace, an
optional sign, then a maximal digit run; `none` models `NaN`. -/
def jsParseIntStr (s : String) : Option Int :=
  match (s.toList).dropWhile jsIsWs with
  | '-' :: rest => (leadingDigits rest).map (fun n => -(n : Int))
  | '+' :: rest => (leadingDigits rest).map (fun n => (n : Int))
  | l => (leadingDigits l).map (fun n => (n : Int))

/-- JS `parseInt(value)` for a possibly-absent cell value
(`parseInt(undefined)` is `NaN`). -/
def jsParseInt (v : Option String) : Option Int :=
  match v with
  | some s => jsParseIntStr s
  | none => none

/-- Leading-float parse of a cleaned numeric string (only digits, `.`
and `,` can occur): the semantics of JS `parseFloat` on such input.
`none` models `NaN`. -/
def jsParseFloatPrefix (l : List Char) : Option ℚ :=
  let ip := l.takeWhile Char.isDigit
  match l.drop ip.length with
  | '.' :: rest =>
    let fp := rest.takeWhile Char.isDigit
    if ip.isEmpty && fp.isEmpty then none
    else some ((digitsToNat ip : ℚ) + (digitsToNat fp : ℚ) / ((10 : ℚ) ^ fp.length))
  | _ => if ip.isEmpty then none else some (digitsToNat ip : ℚ)

/-- Replace the first comma by a period: JS `s.replace(',', '.')` with a
string pattern replaces only the first occurrence. -/
def replaceFirstComma : List Char → List Char
  | [] => []
  | c :: rest => if c = ',' then '.' :: rest else c :: replaceFirstComma rest

/-- `String(value).replace(/[^0-9.,]/g, '').replace(',', '.')`;
`String(undefined)` is the string `"undefined"`. -/
def cleanNumStr (v : Option String) : List Char :=
  let s := match v with | some s => s | none => "undefined"
  replaceFirstComma (s.toList.filter (fun c => c.isDigit || c = '.' || c = ','))

/-- `parseFloat(cleaned) || 0`: `NaN` (and `0` itself) collapse to `0`. -/
def moneyVal (v : Option String) : ℚ :=
  (jsParseFloatPrefix (cleanNumStr v)).getD 0

/-- `x || 0` for a possibly-absent rational (`undefined` and `0` are
falsy). -/
def jsNumQ (o : Option ℚ) : ℚ := o.getD 0

/-- `x || 0` for a possibly-absent integer. -/
def jsNumI (o : Option Int) : Int := o.getD 0

/-- `x || d` for a possibly-absent string (`undefined` and `""` are
falsy). -/
def jsStrOr (o : Option String) (d : String) : String :=
  match o with
  | some s => if s = "" then d else s
  | none => d

/-- Truthiness of `topN : number | null` (`null` and `0` are falsy). -/
def jsTruthyTopN (o : Option Int) : Bool :=
  match o with
  | some n => n != 0
  | none => false

/-- Is a possibly-absent rational falsy (`undefined` or `0`)? -/
def jsFalsyQ (o : Option ℚ) : Bool :=
  match o with
  | some q => q == 0
  | none => true

/-- Is a possibly-absent integer falsy (`undefined` or `0`)? -/
def jsFalsyI (o : Option Int) : Bool :=
  match o with
  | some n => n == 0
  | none => true

/-- Template-literal stringification of a possibly-absent integer:
`` `${x}` `` prints `undefined` for `undefined`. -/
def optIntTemplate : Option Int → String
  | some n => toString n
  | none => "undefined"

/-- Two-digit zero padding of a small number, `String.padStart(2,'0')`
applied to its decimal form. -/
def pad2 (n : Nat) : String :=
  if n < 10 then "0" ++ toString n else toString n

/-- `padStart(2, '0')` on a (digit) character list. -/
def padTo2 (l : List Char) : List Char :=
  if l.length < 2 then '0' :: l else l

/-- `q.toFixed(2)` for a nonnegative exact rational, following the
ECMAScript algorithm: the integer `n` with `n / 100` closest to `q`,
ties resolved to the larger `n`. -/
def toFixed2Pos (q : ℚ) : String :=
  let n : Nat := (Rat.floor (q * 100 + 1 / 2)).toNat
  toString (n / 100) ++ "." ++ pad2 (n % 100)

/-- `q.toFixed(2)` for an exact rational (ECMAScript extracts the sign
first). -/
def toFixed2 (q : ℚ) : String :=
  if q < 0 then "-" ++ toFixed2Pos (-q) else toFixed2Pos q

/-- `(((last - prev) / prev) * 100).toFixed(2)` under JS float
semantics: when `prev = 0` the division yields `NaN` (if `last = 0`) or
`±Infinity`, which `toFixed` stringifies verbatim; otherwise the value
is exact and `toFixed2` applies. -/
def growthPct (lastR prevR : ℚ) : String :=
  if prevR = 0 then
    if lastR - prevR = 0 then "NaN"
    else if 0 < lastR - prevR then "Infinity"
    else "-Infinity"
  else toFixed2 (((lastR - prevR) / prevR) * 100)

instance exceptDecEq [DecidableEq ε] [DecidableEq α] : DecidableEq (Except ε α) :=
  fun x y =>
  match x, y with
  | .error a, .error b =>
    if h : a = b then isTrue (congrArg Except.error h)
    else isFalse (fun hh => h (Except.error.inj hh))
  | .error _, .ok _ => isFalse (fun hh => Except.noConfusion hh)
  | .ok _, .error _ => isFalse (fun hh => Except.noConfusion hh)
  | .ok a, .ok b =>
    if h : a = b then isTrue (congrArg Except.ok h)
    else isFalse (fun hh => h (Except.ok.inj hh))

/-! ## Data model

`Row` is one (normalized) sales record as the JS code consumes it: an
object with possibly-missing properties.  Unknown extra columns land in
`extra`. -/

structure Row where
  Data : Option String := none
  Ano : Option Int := none
  Mes : Option Int := none
  Trimestre : Option Int := none
  ID_Transacao : Option String := none
  Produto : Option String := none
  Categoria : Option String := none
  Regiao : Option String := none
  Quantidade : Option Int := none
  Preco_Unitario : Option ℚ := none
  Receita_Total : Option ℚ := none
  extra : List (String × Option String) := []
deriving DecidableEq

/-- Parsed intent of one user question (`interface QueryContext`). -/
structure QueryContext where
  years : List Int := []
  months : List Int := []
  produtos : List String := []
  categorias : List String := []
  regioes : List String := []
  metrics : List String := []
  comparison : Bool := false
  topN : Option Int := none
deriving DecidableEq

/-- One entry of `analysis.grupos`. -/
structure Grupo where
  nome : String
  receita_total : ℚ
  quantidade_total : Int
  ticket_medio : ℚ
deriving DecidableEq

/-- One entry of `analysis.evolucao_mensal`. -/
structure MonthEntry where
  mes : String
  receita : ℚ
  quantidade : Int
deriving DecidableEq

/-- `analysis.variacao_mensal`. -/
structure Variacao where
  crescimento_pct : String
  periodo_anterior : String
  periodo_atual : String
deriving DecidableEq

/-- The analysis object produced by `analyzeData`. -/
structure Analysis where
  total_registros : Nat
  receita_total : ℚ
  quantidade_total : Int
  ticket_medio : ℚ
  periodo_analizado : String
  grupos : List Grupo
  grupo_por : Option String := none
  variacao_mensal : Option Variacao := none
  evolucao_mensal : Option (List MonthEntry) := none
  erro : Option String := none
deriving DecidableEq

/-- Per-group accumulator of the grouping loop in `analyzeData`. -/
structure GroupStats where
  receita : ℚ := 0
  quantidade : Int := 0
  count : Int := 0
deriving DecidableEq

/-- Per-month accumulator of the comparison loop in `analyzeData`. -/
structure MonthStats where
  receita : ℚ := 0
  quantidade : Int := 0
deriving DecidableEq

/-! ## Fixed lookup tables (chat function) -/

/-- `MONTHS_PT`, in source insertion order (full name before its
abbreviation for each month). -/
def MONTHS_PT : List (String × Int) :=
  [("janeiro", 1), ("jan", 1),
   ("fevereiro", 2), ("fev", 2),
   ("março", 3), ("mar", 3),
   ("abril", 4), ("abr", 4),
   ("maio", 5), ("mai", 5),
   ("junho", 6), ("jun", 6),
   ("julho", 7), ("jul", 7),
   ("agosto", 8), ("ago", 8),
   ("setembro", 9), ("set", 9),
   ("outubro", 10), ("out", 10),
   ("novembro", 11), ("nov", 11),
   ("dezembro", 12), ("dez", 12)]

/-- `MONTHS_PT[s]`: property lookup by key. -/
def lookupMONTHS (s : String) : Option Int :=
  (MONTHS_PT.find? (fun p => p.1 = s)).map (fun p => p.2)

/-- `Object.keys(MONTHS_PT).find(k => MONTHS_PT[k] === m)`: the first
key (insertion order) whose value is `m`. -/
def findMonthNameByNum (m : Int) : Option String :=
  (MONTHS_PT.find? (fun p => p.2 = m)).map (fun p => p.1)

/-! ## Header normalizer (parse-spreadsheet function) -/

/-- `SCHEMA_MAPPING`, in source insertion order. -/
def SCHEMA_MAPPING : List (String × List String) :=
  [("Data", ["data", "date", "fecha", "datum"]),
   ("ID_Transacao", ["id_transacao", "id", "transacao", "transaction_id", "id_venda"]),
   ("Produto", ["produto", "product", "item", "articulo"]),
   ("Categoria", ["categoria", "category", "tipo", "type"]),
   ("Regiao", ["regiao", "region", "area", "estado", "state"]),
   ("Quantidade", ["quantidade", "qtd", "quantity", "qty", "unidades"]),
   ("Preco_Unitario", ["preco_unitario", "preco", "price", "unit_price", "valor_unitario"]),
   ("Receita_Total", ["receita_total", "valor_total", "total", "revenue", "receita"])]

/-- `header.toLowerCase().trim().replace(/[^a-z0-9_]/g, '_')`. -/
def cleanHeader (s : String) : List Char :=
  (trimChars (s.toList.map Char.toLower)).map
    (fun c => if ('a' ≤ c && c ≤ 'z') || ('0' ≤ c && c ≤ '9') || c = '_' then c else '_')

/-- `normalizeHeader`: the first canonical field (table order) one of
whose variants is a substring of the cleaned header wins; otherwise the
original header is returned. -/
def normalizeHeader (header : String) : String :=
  let cleaned := cleanHeader header
  match SCHEMA_MAPPING.find? (fun e => e.2.any (fun v => containsSub v.toList cleaned)) with
  | some e => e.1
  | none => header

/-! ## Date parsing (parse-spreadsheet function) -/

/-- The object returned by a successful `parseDate`. -/
structure DateParts where
  date : String
  year : Int
  month : Int
deriving DecidableEq

/-- The group check and result of a `YYYY-M(M)-D(D)` candidate. -/
def isoMake (y m d : List Char) : Option DateParts :=
  if y.length = 4 && y.all Char.isDigit &&
     1 ≤ m.length && m.length ≤ 2 && m.all Char.isDigit &&
     1 ≤ d.length && d.length ≤ 2 && d.all Char.isDigit then
    some { date := String.mk (y ++ '-' :: (padTo2 m ++ '-' :: padTo2 d)),
           year := (digitsToNat y : Int),
           month := (digitsToNat m : Int) }
  else none

/-- The `^(\d{4})-(\d{1,2})-(\d{1,2})$` branch of `parseDate`. -/
def isoMatch (l : List Char) : Option DateParts :=
  match splitOnChar '-' l with
  | [y, m, d] => isoMake y m d
  | _ => none

/-- The group check and result of a `D(D)/M(M)/YYYY` candidate:
`const [day, month] = d1 > 12 ? [d1, d2] : [d2, d1]`. -/
def slashMake (p1 p2 p3 : List Char) : Option DateParts :=
  if 1 ≤ p1.length && p1.length ≤ 2 && p1.all Char.isDigit &&
     1 ≤ p2.length && p2.length ≤ 2 && p2.all Char.isDigit &&
     p3.length = 4 && p3.all Char.isDigit then
    let d1 : Int := (digitsToNat p1 : Int)
    let d2 : Int := (digitsToNat p2 : Int)
    let year : Int := (digitsToNat p3 : Int)
    let day : Int := if d1 > 12 then d1 else d2
    let month : Int := if d1 > 12 then d2 else d1
    some { date := String.mk ((toString year).toList ++ '-' ::
                     (padTo2 (toString month).toList ++ '-' ::
                      padTo2 (toString day).toList)),
           year := year, month := month }
  else none

/-- The `^(\d{1,2})\/(\d{1,2})\/(\d{4})$` branch of `parseDate`. -/
def slashMatch (l : List Char) : Option DateParts :=
  match splitOnChar '/' l with
  | [p1, p2, p3] => slashMake p1 p2 p3
  | _ => none

/-- `parseDate(dateStr)`: falsy input (absent or empty) is rejected,
then the trimmed string is matched against the ISO form first and the
slash form second. -/
def parseDate (v : Option String) : Option DateParts :=
  match v with
  | none => none
  | some s =>
    if s = "" then none
    else
      let str := trimChars s.toList
      match isoMatch str with
      | some dp => some dp
      | none => slashMatch str

/-! ## Row normalizer (parse-spreadsheet function) -/

/-- `row[original]` on a raw row. -/
def lookupRaw (row : List (String × String)) (k : String) : Option String :=
  (row.find? (fun p => p.1 = k)).map (fun p => p.2)

/-- Assignment into the open-ended part of the normalized object. -/
def upsertAssoc (k : String) (v : Option String) :
    List (String × Option String) → List (String × Option String)
  | [] => [(k, v)]
  | (k₂, v₂) :: rest =>
    if k = k₂ then (k, v) :: rest else (k₂, v₂) :: upsertAssoc k v rest

/-- One iteration of the `for (const [original, standard] of headerMap)`
loop of `normalizeRow`. -/
def normStep (row : List (String × String)) (acc : Row)
    (entry : String × String) : Row :=
  let value := lookupRaw row entry.1
  let standard := entry.2
  if standard = "Data" then
    match parseDate value with
    | some p =>
      { acc with Data := some p.date, Ano := some p.year, Mes := some p.month,
                 -- Math.ceil(month / 3); parsed months are nonnegative
                 Trimestre := some ((p.month + 2) / 3) }
    | none => acc
  else if standard = "Quantidade" then
    -- parseInt(value) || 0
    { acc with Quantidade := some ((jsParseInt value).getD 0) }
  else if standard = "Preco_Unitario" then
    { acc with Preco_Unitario := some (moneyVal value) }
  else if standard = "Receita_Total" then
    { acc with Receita_Total := some (moneyVal value) }
  else if standard = "Produto" then { acc with Produto := value }
  else if standard = "Categoria" then { acc with Categoria := value }
  else if standard = "Regiao" then { acc with Regiao := value }
  else if standard = "ID_Transacao" then { acc with ID_Transacao := value }
  else { acc with extra := upsertAssoc standard value acc.extra }

/-- `normalizeRow(row, headerMap)`: fold the header map over an empty
object, then derive `Receita_Total = Quantidade * Preco_Unitario` when
revenue is falsy and both operands are truthy. -/
def normalizeRow (row : List (String × String))
    (headerMap : List (String × String)) : Row :=
  let base := headerMap.foldl (normStep row) {}
  if jsFalsyQ base.Receita_Total && !jsFalsyI base.Quantidade &&
     !jsFalsyQ base.Preco_Unitario then
    { base with
      Receita_Total := some ((base.Quantidade.getD 0 : ℚ) * base.Preco_Unitario.getD 0) }
  else base

/-! ## Query parser (chat function) -/

/-- All full matches of `/\b(20\d{2})\b/g`: scan left to right, a match
needs a non-word character (or the string start) before and a non-word
character (or the end) after; scanning resumes after a match. -/
def yearScan (prev : Bool) : List Char → List String
  | c1 :: c2 :: c3 :: c4 :: rest =>
    if !prev && c1 = '2' && c2 = '0' && c3.isDigit && c4.isDigit &&
       !(match rest with | r :: _ => isWordChar r | [] => false) then
      String.mk [c1, c2, c3, c4] :: yearScan true rest
    else yearScan (isWordChar c1) (c2 :: c3 :: c4 :: rest)
  | _ :: rest => yearScan true rest
  | [] => []

/-- `query.match(/\b(20\d{2})\b/g)` on the raw (case-preserved) query. -/
def yearTokens (query : String) : List String :=
  yearScan false query.toList

/-- The month-detection loop: for each `MONTHS_PT` entry in table order,
push its number when the name occurs as a substring of the lowercased
query and the number is not already present. -/
def monthsFound (lower : String) : List Int :=
  MONTHS_PT.foldl
    (fun acc p =>
      if containsSub p.1.toList lower.toList && !(acc.contains p.2) then
        acc ++ [p.2]
      else acc)
    []

/-- Does one of `ws` occur in `l` with a word boundary on each side?
The semantics of testing `/\b(w1|w2|...)\b/` against `l`. -/
def wordTestAux (ws : List (List Char)) (prev : Bool) : List Char → Bool
  | [] => false
  | c :: rest =>
    (!prev && ws.any (fun w =>
       w.isPrefixOf (c :: rest) &&
       (match (c :: rest).drop w.length with
        | r :: _ => !isWordChar r
        | [] => true)))
    || wordTestAux ws (isWordChar c) rest

/-- `lower.match(/\b(...)\b/)` viewed as a boolean test. -/
def wordTest (ws : List String) (lower : String) : Bool :=
  wordTestAux (ws.map String.toList) false lower.toList

/-- At one position, try the alternatives of
`/\b(top|maior|melhor|principal)\s*(\d+)/` in regex order and return
the captured number of the first one that completes. -/
def tryTopAt (alts : List (List Char)) (prev : Bool) (l : List Char) : Option Int :=
  if prev then none
  else
    alts.foldl
      (fun acc w =>
        match acc with
        | some n => some n
        | none =>
          if w.isPrefixOf l then
            match leadingDigits ((l.drop w.length).dropWhile jsIsWs) with
            | some n => some (n : Int)
            | none => none
          else none)
      none

/-- Leftmost match of `/\b(top|maior|melhor|principal)\s*(\d+)/`. -/
def topNScan (alts : List (List Char)) (prev : Bool) : List Char → Option Int
  | [] => none
  | c :: rest =>
    match tryTopAt alts prev (c :: rest) with
    | some n => some n
    | none => topNScan alts (isWordChar c) rest

/-- `lower.match(/\b(top|maior|melhor|principal)\s*(\d+)/)`, returning
`parseInt` of the digit capture of the first match. -/
def topNFound (lower : String) : Option Int :=
  topNScan ["top".toList, "maior".toList, "melhor".toList, "principal".toList]
    false lower.toList

/-- `[...new Set(allData.map(r => r.f).filter(Boolean))]`: the distinct
truthy values of one entity field, in first-seen order. -/
def uniqueVals (f : Row → Option String) (allData : List Row) : List String :=
  firstSeen ((allData.map f).filterMap
    (fun o => match o with
      | some s => if s = "" then none else some s
      | none => none))

/-- The entity-recognition loop: keep the known values whose lowercase
form occurs as a substring of the lowercased query. -/
def entitiesFound (lower : String) (candidates : List String) : List String :=
  candidates.filter (fun p => containsSub (jsToLower p).toList lower.toList)

/-- `parseQuery(query, allData)`. -/
def parseQuery (query : String) (allData : List Row) : QueryContext :=
  let lower := jsToLower query
  { years := (yearTokens query).map (fun s => (digitsToNat s.toList : Int)),
    months := monthsFound lower,
    metrics :=
      (if wordTest ["quantidade", "qtd", "unidades", "volume"] lower then ["quantidade"] else []) ++
      (if wordTest ["receita", "valor", "faturamento", "vendas"] lower then ["receita"] else []) ++
      (if wordTest ["preço", "preco", "média", "medio", "ticket"] lower then ["preco_medio"] else []),
    comparison :=
      wordTest ["crescimento", "variação", "variacao", "comparação", "comparacao", "vs", "versus"] lower,
    topN := topNFound lower,
    produtos := entitiesFound lower (uniqueVals Row.Produto allData),
    categorias := entitiesFound lower (uniqueVals Row.Categoria allData),
    regioes := entitiesFound lower (uniqueVals Row.Regiao allData) }

/-! ## Data filter (chat function) -/

/-- `list.includes(x)` where `x` may be `undefined` (never a member of
a list of defined values). -/
def optMem [BEq α] (x : Option α) (l : List α) : Bool :=
  match x with
  | some v => l.contains v
  | none => false

/-- The row predicate of `filterData`, with the source's early-return
structure. -/
def rowPasses (context : QueryContext) (row : Row) : Bool :=
  if context.years.length > 0 && !optMem row.Ano context.years then false
  else if context.months.length > 0 && !optMem row.Mes context.months then false
  else if context.produtos.length > 0 && !optMem row.Produto context.produtos then false
  else if context.categorias.length > 0 && !optMem row.Categoria context.categorias then false
  else if context.regioes.length > 0 && !optMem row.Regiao context.regioes then false
  else true

/-- `filterData(data, context)`. -/
def filterData (data : List Row) (context : QueryContext) : List Row :=
  data.filter (rowPasses context)

/-! ## Aggregation engine (chat function) -/

/-- JS `Array.prototype.sort()` with no comparator on the distinct
year/month values: `undefined` entries move to the end, the rest are
ordered by their string form (stably). -/
def jsSortOptInt (l : List (Option Int)) : List (Option Int) :=
  stableSort
    (fun a b => lexLe (toString (a.getD 0)).toList (toString (b.getD 0)).toList)
    (l.filter (fun o => o.isSome)) ++
  l.filter (fun o => !o.isSome)

/-- The month name used in the period label:
`Object.keys(MONTHS_PT).find(k => MONTHS_PT[k] === months[0]) || months[0]`
interpolated into a template literal. -/
def monthLabel (mv : Option Int) : String :=
  match mv with
  | some m =>
    match findMonthNameByNum m with
    | some nm => nm
    | none => toString m
  | none => "undefined"

/-- The grouping dimension:
`produtos.length === 0 ? 'Produto' : categorias.length === 0 ? 'Categoria' : 'Regiao'`. -/
def groupDimension (context : QueryContext) : String :=
  if context.produtos.length = 0 then "Produto"
  else if context.categorias.length = 0 then "Categoria"
  else "Regiao"

/-- `row[groupBy]` for the three possible grouping dimensions. -/
def rowField (row : Row) (dim : String) : Option String :=
  if dim = "Produto" then row.Produto
  else if dim = "Categoria" then row.Categoria
  else if dim = "Regiao" then row.Regiao
  else none

/-- `row[groupBy] || 'Outros'`. -/
def groupKeyOf (dim : String) (row : Row) : String :=
  jsStrOr (rowField row dim) "Outros"

/-- One accumulation step of the grouping loop:
`g.receita += row.Receita_Total || 0; g.quantidade += row.Quantidade || 0; g.count++`. -/
def grupoUpd (row : Row) (st : GroupStats) : GroupStats :=
  { receita := st.receita + jsNumQ row.Receita_Total,
    quantidade := st.quantidade + jsNumI row.Quantidade,
    count := st.count + 1 }

/-- The `groups` map of the grouping branch, as an insertion-ordered
association list. -/
def gruposUnsorted (data : List Row) (dim : String) : List (String × GroupStats) :=
  groupFold (groupKeyOf dim) grupoUpd {} data

/-- One `groups` entry mapped to its `grupos` record. -/
def pairToGrupo (p : String × GroupStats) : Grupo :=
  { nome := p.1, receita_total := p.2.receita, quantidade_total := p.2.quantidade,
    ticket_medio := p.2.receita / (p.2.count : ℚ) }

/-- One accumulation step of the monthly comparison loop:
`m.receita += row.Receita_Total || 0; m.quantidade += row.Quantidade || 0`. -/
def monthUpd (row : Row) (st : MonthStats) : MonthStats :=
  { receita := st.receita + jsNumQ row.Receita_Total,
    quantidade := st.quantidade + jsNumI row.Quantidade }

/-- The `byMonth` map of the comparison branch (keyed by `row.Mes`,
which may be `undefined`). -/
def byMonthList (data : List Row) : List (Option Int × MonthStats) :=
  groupFold Row.Mes monthUpd {} data

/-- `Object.keys(MONTHS_PT).find(k => MONTHS_PT[k] === mes) || mes.toString()`:
for an `undefined` key the lookup fails and `undefined.toString()`
throws a `TypeError`. -/
def mesNamePT (m : Int) : String :=
  match findMonthNameByNum m with
  | some nm => nm
  | none => toString m

/-- See `monthKeyName` below: the defined-month case. -/
def monthKeyName (mes : Option Int) : Except String String :=
  match mes with
  | some m => .ok (mesNamePT m)
  | none => .error "TypeError: Cannot read properties of undefined"

/-- The growth record computed from the chronologically sorted monthly
series: the source reads indices `length-1` and `length-2` after a
`length >= 2` check and otherwise leaves `variacao_mensal` unset. -/
def variacaoOf (monthlyData : List MonthEntry) : Option Variacao :=
  match monthlyData.reverse with
  | lastE :: prevE :: _ =>
    some { crescimento_pct := growthPct lastE.receita prevE.receita,
           periodo_anterior := prevE.mes, periodo_atual := lastE.mes }
  | _ => none

/-- The sort key of the monthly comparator:
`MONTHS_PT[a.mes.toLowerCase()] || parseInt(a.mes)` (the `parseInt`
fallback is a number for every name this program produces; a
hypothetical `NaN` is represented by `0`). -/
def mesSortKey (s : String) : Int :=
  match lookupMONTHS (jsToLower s) with
  | some n => if n ≠ 0 then n else (jsParseIntStr s).getD 0
  | none => (jsParseIntStr s).getD 0

/-- `jsSlice0 n l` is `l.slice(0, n)` (a negative end counts from the
end of the list). -/
def jsSlice0 (n : Int) (l : List α) : List α :=
  if 0 ≤ n then l.take n.toNat else l.take ((l.length : Int) + n).toNat

/-- `analyzeData(data, context)`.  The result is `Except` because the
comparison branch throws a `TypeError` when a month bucket has an
`undefined` key (see `monthKeyName`); every other path returns a
well-formed `Analysis`. -/
def analyzeData (data : List Row) (context : QueryContext) : Except String Analysis :=
  if data.length = 0 then
    .ok { total_registros := 0, receita_total := 0, quantidade_total := 0,
          ticket_medio := 0, periodo_analizado := "", grupos := [],
          erro := some "Nenhum dado encontrado para os filtros especificados" }
  else
    let receita_total : ℚ := (data.map (fun r => jsNumQ r.Receita_Total)).sum
    let quantidade_total : Int := (data.map (fun r => jsNumI r.Quantidade)).sum
    let ticket_medio : ℚ := receita_total / (data.length : ℚ)
    let years := jsSortOptInt (firstSeen (data.map Row.Ano))
    let months := jsSortOptInt (firstSeen (data.map Row.Mes))
    let periodo : String :=
      if years.length == 1 && months.length == 1 then
        monthLabel (months.headD none) ++ "/" ++ optIntTemplate (years.headD none)
      else if years.length == 1 then optIntTemplate (years.headD none)
      else optIntTemplate (years.headD none) ++ " a " ++ optIntTemplate (years.getLastD none)
    let base : Analysis :=
      { total_registros := data.length, receita_total := receita_total,
        quantidade_total := quantidade_total, ticket_medio := ticket_medio,
        periodo_analizado := periodo, grupos := [] }
    let withGroups : Analysis :=
      if jsTruthyTopN context.topN || context.comparison then
        let dim := groupDimension context
        let sorted := stableSort (fun a b => decide (b.receita_total ≤ a.receita_total))
          ((gruposUnsorted data dim).map pairToGrupo)
        { base with
          grupos := if jsTruthyTopN context.topN then jsSlice0 (context.topN.getD 0) sorted else sorted,
          grupo_por := some dim }
      else base
    if context.comparison && months.length > 1 then
      match mapExcept
        (fun p => (monthKeyName p.1).map
          (fun nm => ({ mes := nm, receita := p.2.receita, quantidade := p.2.quantidade } : MonthEntry)))
        (byMonthList data) with
      | .error e => .error e
      | .ok monthlyRaw =>
        let monthlyData := stableSort (fun a b => decide (mesSortKey a.mes ≤ mesSortKey b.mes)) monthlyRaw
        .ok { withGroups with
              variacao_mensal := variacaoOf monthlyData,
              evolucao_mensal := some monthlyData }
    else .ok withGroups

/-! ## Specification-side definitions

These two definitions follow the words of the specification (not the
code) and are compared with the code-side definitions in the claim
theorems. -/

/-- The row's field is a defined member of the list. -/
def optMemP (o : Option α) (l : List α) : Prop :=
  ∃ y, o = some y ∧ y ∈ l

instance optMemP.decidable [DecidableEq α] (o : Option α) (l : List α) :
    Decidable (optMemP o l) :=
  match o with
  | some v =>
    if h : v ∈ l then isTrue ⟨v, rfl, h⟩
    else isFalse (by rintro ⟨y, hy, hmem⟩; cases hy; exact h hmem)
  | none => isFalse (by rintro ⟨y, hy, _⟩; cases hy)

/-- Spec-side filter predicate (§4.4 of the spec): for each non-empty
context set the row's corresponding field is a member of that set; an
empty set imposes no constraint. -/
def keepSpec (context : QueryContext) (row : Row) : Prop :=
  (context.years = [] ∨ optMemP row.Ano context.years) ∧
  (context.months = [] ∨ optMemP row.Mes context.months) ∧
  (context.produtos = [] ∨ optMemP row.Produto context.produtos) ∧
  (context.categorias = [] ∨ optMemP row.Categoria context.categorias) ∧
  (context.regioes = [] ∨ optMemP row.Regiao context.regioes)

instance keepSpec.decidable (context : QueryContext) (row : Row) :
    Decidable (keepSpec context row) := by
  unfold keepSpec
  infer_instance

/-- Total revenue of the rows of month `m` (used to state the month
comparison claim). -/
def monthRevenue (data : List Row) (m : Int) : ℚ :=
  ((data.filter (fun r => r.Mes = some m)).map (fun r => jsNumQ r.Receita_Total)).sum

/-! ## Lemmas: stable sort -/

theorem mem_insertDesc (le : α → α → Bool) (a x : α) (l : List α) :
    x ∈ insertDesc le a l ↔ x = a ∨ x ∈ l := by
  induction l with
  | nil => simp [insertDesc]
  | cons b bs ih =>
    simp only [insertDesc]
    by_cases h : le a b = true
    · simp only [if_pos h, List.mem_cons]
    · simp only [if_neg h, List.mem_cons, ih]
      tauto

theorem length_insertDesc (le : α → α → Bool) (a : α) (l : List α) :
    (insertDesc le a l).length = l.length + 1 := by
  induction l with
  | nil => rfl
  | cons b bs ih =>
    simp only [insertDesc]
    by_cases h : le a b = true
    · simp [h]
    · simp [h, ih]

theorem length_stableSort (le : α → α → Bool) (l : List α) :
    (stableSort le l).length = l.length := by
  induction l with
  | nil => rfl
  | cons a as ih => simp [stableSort, length_insertDesc, ih]

theorem pairwise_insertDesc (le : α → α → Bool)
    (htot : ∀ x y, le x y = true ∨ le y x = true)
    (htrans : ∀ x y z, le x y = true → le y z = true → le x z = true)
    (a : α) (l : List α) (hl : l.Pairwise (fun x y => le x y = true)) :
    (insertDesc le a l).Pairwise (fun x y => le x y = true) := by
  induction l with
  | nil => simp [insertDesc]
  | cons b bs ih =>
    rw [List.pairwise_cons] at hl
    obtain ⟨hb, hbs⟩ := hl
    simp only [insertDesc]
    by_cases h : le a b = true
    · rw [if_pos h]
      refine List.Pairwise.cons ?_ (List.Pairwise.cons hb hbs)
      intro x hx
      rcases List.mem_cons.mp hx with rfl | hx2
      · exact h
      · exact htrans a b x h (hb x hx2)
    · rw [if_neg h]
      have hba : le b a = true := (htot a b).resolve_left h
      refine List.Pairwise.cons ?_ (ih hbs)
      intro x hx
      rcases (mem_insertDesc le a x bs).mp hx with rfl | hx2
      · exact hba
      · exact hb x hx2

theorem pairwise_stableSort (le : α → α → Bool)
    (htot : ∀ x y, le x y = true ∨ le y x = true)
    (htrans : ∀ x y z, le x y = true → le y z = true → le x z = true)
    (l : List α) :
    (stableSort le l).Pairwise (fun x y => le x y = true) := by
  induction l with
  | nil => simp [stableSort]
  | cons a as ih => exact pairwise_insertDesc le htot htrans a _ ih

theorem filter_insertDesc (le : α → α → Bool) (p : α → Bool)
    (hp : ∀ x y, p x = true → le x y = false → p y = false)
    (a : α) (l : List α) :
    (insertDesc le a l).filter p = if p a then a :: l.filter p else l.filter p := by
  induction l with
  | nil =>
    simp only [insertDesc, List.filter]
    cases hpa : p a <;> simp
  | cons b bs ih =>
    simp only [insertDesc]
    by_cases h : le a b = true
    · rw [if_pos h]
      cases hpa : p a <;> simp [List.filter_cons, hpa]
    · rw [if_neg h]
      have hfb : le a b = false := by
        cases hab : le a b
        · rfl
        · exact absurd hab h
      cases hpa : p a with
      | true =>
        have hpb : p b = false := hp a b hpa hfb
        simp [List.filter_cons, hpb, ih, hpa]
      | false =>
        simp only [if_neg (by simp [hpa] : ¬ p a = true)] at ih ⊢
        cases hpb : p b <;> simp [List.filter_cons, hpb, ih, hpa]

theorem filter_stableSort (le : α → α → Bool) (p : α → Bool)
    (hp : ∀ x y, p x = true → le x y = false → p y = false)
    (l : List α) :
    (stableSort le l).filter p = l.filter p := by
  induction l with
  | nil => rfl
  | cons a as ih =>
    simp only [stableSort]
    rw [filter_insertDesc le p hp]
    cases hpa : p a <;> simp [List.filter_cons, hpa, ih]

/-! ## Lemmas: first-seen deduplication and grouping -/

theorem firstSeen_nil [DecidableEq κ] : firstSeen ([] : List κ) = [] := rfl

theorem filter_firstSeen_comm [DecidableEq κ] (p : κ → Bool) :
    ∀ (l : List κ), firstSeen (l.filter p) = (firstSeen l).filter p := by
  intro l
  induction l with
  | nil => rfl
  | cons x xs ih =>
    rw [List.filter_cons]
    by_cases hpx : p x = true
    · rw [if_pos hpx]
      show x :: (firstSeen (xs.filter p)).filter (fun y => y ≠ x) = _
      rw [ih]
      show _ = (x :: (firstSeen xs).filter (fun y => y ≠ x)).filter p
      rw [List.filter_cons, if_pos hpx, List.filter_filter, List.filter_filter]
      congr 1
      apply List.filter_congr
      intro y _
      rw [Bool.and_comm]
    · rw [if_neg hpx]
      rw [ih]
      show _ = (x :: (firstSeen xs).filter (fun y => y ≠ x)).filter p
      rw [List.filter_cons, if_neg hpx, List.filter_filter]
      apply List.filter_congr
      intro y _
      by_cases hyx : y = x
      · subst hyx
        have : p y = false := by
          cases hp : p y
          · rfl
          · exact absurd hp hpx
        simp [this]
      · simp [hyx]

theorem firstSeen_cons [DecidableEq κ] (k : κ) (ks : List κ) :
    firstSeen (k :: ks) = k :: firstSeen (ks.filter (fun x => x ≠ k)) := by
  show k :: (firstSeen ks).filter (fun x => x ≠ k) = _
  rw [filter_firstSeen_comm]

theorem mem_of_mem_firstSeen [DecidableEq κ] (l : List κ) (x : κ)
    (hx : x ∈ firstSeen l) : x ∈ l := by
  induction l with
  | nil => cases hx
  | cons k ks ih =>
    rcases List.mem_cons.mp hx with rfl | hx2
    · exact List.mem_cons_self _ _
    · exact List.mem_cons_of_mem _ (ih (List.mem_of_mem_filter hx2))

theorem collect_nil [DecidableEq κ] (key : α → κ) (upd : α → σ → σ) (k : κ) (v : σ) :
    collect key upd k [] v = v := rfl

theorem collect_cons [DecidableEq κ] (key : α → κ) (upd : α → σ → σ) (k : κ)
    (a : α) (data : List α) (v : σ) :
    collect key upd k (a :: data) v =
      if key a = k then collect key upd k data (upd a v) else collect key upd k data v := by
  simp only [collect, List.filter_cons]
  by_cases h : key a = k
  · simp [h, List.foldl_cons]
  · simp [h]

theorem upsert_mem_map [DecidableEq κ] (k₀ : κ) (u : σ → σ) (z : σ)
    (ks : List κ) (f : κ → σ) (hnd : ks.Nodup) (hmem : k₀ ∈ ks) :
    upsert k₀ u z (ks.map (fun k => (k, f k))) =
      ks.map (fun k => (k, if k = k₀ then u (f k₀) else f k)) := by
  induction ks with
  | nil => cases hmem
  | cons k₁ ks₁ ih =>
    rw [List.nodup_cons] at hnd
    obtain ⟨hk₁, hnd₁⟩ := hnd
    simp only [List.map_cons, upsert]
    by_cases h : k₀ = k₁
    · subst h
      have htail : ks₁.map (fun k => (k, f k)) =
          ks₁.map (fun k => (k, if k = k₀ then u (f k₀) else f k)) := by
        apply List.map_congr_left
        intro x hx
        rw [if_neg (fun hxk : x = k₀ => hk₁ (hxk ▸ hx))]
      simp [htail]
    · have hne : ¬ k₁ = k₀ := fun hh => h hh.symm
      simp only [if_neg h, if_neg hne]
      congr 1
      exact ih hnd₁ (List.mem_of_ne_of_mem h hmem)

theorem upsert_not_mem_map [DecidableEq κ] (k₀ : κ) (u : σ → σ) (z : σ)
    (ks : List κ) (f : κ → σ) (hmem : k₀ ∉ ks) :
    upsert k₀ u z (ks.map (fun k => (k, f k))) =
      ks.map (fun k => (k, f k)) ++ [(k₀, u z)] := by
  induction ks with
  | nil => rfl
  | cons k₁ ks₁ ih =>
    simp only [List.map_cons, upsert]
    have h : ¬ k₀ = k₁ := fun hh => hmem (hh ▸ List.mem_cons_self _ _)
    simp only [if_neg h, List.cons_append]
    congr 1
    exact ih (fun hh => hmem (List.mem_cons_of_mem _ hh))

theorem groupFoldAux [DecidableEq κ] (key : α → κ) (upd : α → σ → σ) (z : σ) :
    ∀ (data : List α) (ks : List κ) (f : κ → σ), ks.Nodup →
    data.foldl (fun acc a => upsert (key a) (upd a) z acc) (ks.map (fun k => (k, f k))) =
    (ks ++ firstSeen ((data.map key).filter (fun x => decide (x ∉ ks)))).map
      (fun k => (k, collect key upd k data (if k ∈ ks then f k else z))) := by
  intro data
  induction data with
  | nil =>
    intro ks f hnd
    simp only [List.foldl_nil, List.map_nil, List.filter_nil, firstSeen_nil,
      List.append_nil]
    apply List.map_congr_left
    intro k hk
    rw [collect_nil, if_pos hk]
  | cons a rest ih =>
    intro ks f hnd
    simp only [List.foldl_cons]
    by_cases hmem : key a ∈ ks
    · rw [upsert_mem_map (key a) (upd a) z ks f hnd hmem]
      rw [ih ks (fun k => if k = key a then upd a (f (key a)) else f k) hnd]
      have hkeys : ((a :: rest).map key).filter (fun x => decide (x ∉ ks)) =
          (rest.map key).filter (fun x => decide (x ∉ ks)) := by
        simp only [List.map_cons, List.filter_cons]
        rw [if_neg (by simp [hmem])]
      rw [hkeys]
      apply List.map_congr_left
      intro k hk
      have hcc := collect_cons key upd k a rest
      rcases List.mem_append.mp hk with hks | hfs
      · rw [if_pos hks, if_pos hks, hcc]
        by_cases hek : key a = k
        · subst hek
          rw [if_pos rfl, if_pos rfl]
        · rw [if_neg hek, if_neg (fun hh : k = key a => hek hh.symm)]
      · have hnks : k ∉ ks := by
          have h1 := mem_of_mem_firstSeen _ _ hfs
          have h2 := List.of_mem_filter h1
          simpa using h2
        rw [if_neg hnks, if_neg hnks, hcc]
        rw [if_neg (fun hh : key a = k => hnks (hh ▸ hmem))]
    · rw [upsert_not_mem_map (key a) (upd a) z ks f hmem]
      have hsplit : ks.map (fun k => (k, f k)) ++ [(key a, upd a z)] =
          (ks ++ [key a]).map (fun k => (k, if k = key a then upd a z else f k)) := by
        rw [List.map_append]
        congr 1
        · apply List.map_congr_left
          intro x hx
          rw [if_neg (fun hh : x = key a => hmem (hh ▸ hx))]
        · simp
      rw [hsplit]
      have hnd2 : (ks ++ [key a]).Nodup := by
        rw [List.nodup_append]
        refine ⟨hnd, List.nodup_singleton _, ?_⟩
        intro x hx hx2
        rw [List.mem_singleton] at hx2
        exact hmem (hx2 ▸ hx)
      rw [ih (ks ++ [key a]) (fun k => if k = key a then upd a z else f k) hnd2]
      have hfirst : firstSeen (((a :: rest).map key).filter (fun x => decide (x ∉ ks))) =
          key a :: firstSeen ((rest.map key).filter (fun x => decide (x ∉ ks ++ [key a]))) := by
        simp only [List.map_cons, List.filter_cons]
        rw [if_pos (by simp [hmem])]
        rw [firstSeen_cons]
        congr 1
        rw [List.filter_filter]
        congr 1
        apply List.filter_congr
        intro x _
        simp only [List.mem_append, List.mem_singleton]
        by_cases h1 : x ∈ ks <;> by_cases h2 : x = key a <;> simp [h1, h2]
      have hkeys : ks ++ firstSeen (((a :: rest).map key).filter (fun x => decide (x ∉ ks))) =
          (ks ++ [key a]) ++ firstSeen ((rest.map key).filter (fun x => decide (x ∉ ks ++ [key a]))) := by
        rw [hfirst, ← List.append_cons]
      rw [← hkeys]
      apply List.map_congr_left
      intro k hk
      have hcc := collect_cons key upd k a rest
      rcases List.mem_append.mp hk with hks | hfs
      · have hne : ¬ k = key a := fun hh => hmem (hh ▸ hks)
        rw [if_pos (List.mem_append.mpr (Or.inl hks)), if_pos hks,
          if_neg hne, hcc, if_neg (fun hh : key a = k => hne hh.symm)]
      · rcases List.mem_cons.mp (hfirst ▸ hfs) with hka | hrest
        · subst hka
          rw [if_pos (List.mem_append.mpr (Or.inr (List.mem_singleton_self _))),
            if_pos rfl, if_neg hmem, hcc, if_pos rfl]
        · have hk2 := mem_of_mem_firstSeen _ _ hrest
          have h2 := List.of_mem_filter hk2
          simp at h2
          obtain ⟨hk5, hk6⟩ := h2
          rw [if_neg (by simp [hk5, hk6] : ¬ k ∈ ks ++ [key a]), if_neg hk5,
            hcc, if_neg (fun hh : key a = k => hk6 hh.symm)]

theorem groupFold_eq [DecidableEq κ] (key : α → κ) (upd : α → σ → σ) (z : σ)
    (data : List α) :
    groupFold key upd z data =
      (firstSeen (data.map key)).map (fun k => (k, collect key upd k data z)) := by
  have h := groupFoldAux key upd z data [] (fun _ => z) List.nodup_nil
  simp only [List.map_nil, List.nil_append] at h
  rw [groupFold, h]
  have hfil : (data.map key).filter (fun x => decide (x ∉ ([] : List κ))) = data.map key :=
    List.filter_eq_self.mpr (fun a _ => by simp)
  rw [hfil]
  apply List.map_congr_left
  intro k hk
  rw [if_neg (List.not_mem_nil k)]

theorem groupFold_keys [DecidableEq κ] (key : α → κ) (upd : α → σ → σ) (z : σ)
    (data : List α) :
    (groupFold key upd z data).map Prod.fst = firstSeen (data.map key) := by
  rw [groupFold_eq, List.map_map]
  have hid : (Prod.fst ∘ fun k => (k, collect key upd k data z)) = fun k => k := by
    funext k
    rfl
  rw [hid, List.map_id']

/-! ## Lemmas: Except-valued map, split, trim, counting -/

theorem mapExcept_ok (f : α → Except ε β) :
    ∀ (l : List α), (∀ a ∈ l, ∃ b, f a = .ok b) →
    ∃ l₂, mapExcept f l = .ok l₂ := by
  intro l
  induction l with
  | nil => intro _; exact ⟨[], rfl⟩
  | cons a rest ih =>
    intro h
    obtain ⟨b, hb⟩ := h a (List.mem_cons_self _ _)
    obtain ⟨l₂, hl₂⟩ := ih (fun x hx => h x (List.mem_cons_of_mem _ hx))
    exact ⟨b :: l₂, by simp [mapExcept, hb, hl₂]⟩

theorem splitOnChar_ne_nil (c : Char) : ∀ (l : List Char), splitOnChar c l ≠ [] := by
  intro l
  induction l with
  | nil => simp [splitOnChar]
  | cons x xs ih =>
    rw [splitOnChar]
    cases h : splitOnChar c xs with
    | nil => exact absurd h ih
    | cons g gs =>
      by_cases hx : x = c
      · simp [hx]
      · simp [hx]

theorem splitOnChar_not_mem {c : Char} :
    ∀ {l : List Char}, c ∉ l → splitOnChar c l = [l] := by
  intro l
  induction l with
  | nil => intro _; rfl
  | cons x xs ih =>
    intro h
    have hx : ¬ x = c := fun hh => h (hh ▸ List.mem_cons_self _ _)
    have hxs : c ∉ xs := fun hh => h (List.mem_cons_of_mem _ hh)
    rw [splitOnChar, ih hxs]
    simp [hx]

theorem splitOnChar_append {c : Char} :
    ∀ {l₁ : List Char} (l₂ : List Char), c ∉ l₁ →
    splitOnChar c (l₁ ++ c :: l₂) = l₁ :: splitOnChar c l₂ := by
  intro l₁
  induction l₁ with
  | nil =>
    intro l₂ _
    rw [List.nil_append, splitOnChar]
    cases h : splitOnChar c l₂ with
    | nil => exact absurd h (splitOnChar_ne_nil c l₂)
    | cons g gs => simp
  | cons x xs ih =>
    intro l₂ h
    have hx : ¬ x = c := fun hh => h (hh ▸ List.mem_cons_self _ _)
    have hxs : c ∉ xs := fun hh => h (List.mem_cons_of_mem _ hh)
    rw [List.cons_append, splitOnChar, ih l₂ hxs]
    simp [hx]

theorem dropWhile_eq_self_of (p : Char → Bool) (l : List Char)
    (h : ∀ c ∈ l, p c = false) : l.dropWhile p = l := by
  cases l with
  | nil => rfl
  | cons x xs =>
    rw [List.dropWhile_cons]
    rw [h x (List.mem_cons_self _ _)]
    simp

theorem trimChars_eq_self (l : List Char) (h : ∀ c ∈ l, jsIsWs c = false) :
    trimChars l = l := by
  unfold trimChars
  rw [dropWhile_eq_self_of _ _ h]
  rw [dropWhile_eq_self_of _ _ (fun c hc => h c (List.mem_reverse.mp hc))]
  exact List.reverse_reverse l

theorem count_filter_eq [DecidableEq α] (p : α → Bool) (a : α) (l : List α) :
    (l.filter p).count a = if p a then l.count a else 0 := by
  by_cases h : p a
  · rw [if_pos h]
    exact List.count_filter h
  · rw [if_neg h]
    rw [List.count_eq_zero]
    intro hmem
    exact h (List.of_mem_filter hmem)

/-! ## Lemmas: monthly aggregation values -/

theorem foldl_month_receita (l : List Row) :
    ∀ (v : MonthStats),
    (l.foldl (fun s row => monthUpd row s) v).receita =
      v.receita + (l.map (fun r => jsNumQ r.Receita_Total)).sum := by
  induction l with
  | nil => intro v; simp
  | cons a rest ih =>
    intro v
    rw [List.foldl_cons, ih]
    simp only [List.map_cons, List.sum_cons, monthUpd]
    ring

theorem collect_month_receita (data : List Row) (m : Int) :
    (collect Row.Mes monthUpd (some m) data ({} : MonthStats)).receita =
      monthRevenue data m := by
  unfold collect monthRevenue
  rw [foldl_month_receita]
  simp only [MonthStats.receita]
  rw [zero_add]

/-! ## Lemmas: the filter predicate against the spec-side predicate -/

theorem guard_true_iff [DecidableEq α] (l : List α) (x : Option α) :
    ((decide (l.length > 0) && !optMem x l) = true) ↔ ¬(l = [] ∨ optMemP x l) := by
  rw [Bool.and_eq_true, Bool.not_eq_true']
  constructor
  · rintro ⟨hlen, hmem⟩ (hnil | hop)
    · subst hnil
      simp at hlen
    · obtain ⟨y, hy, hyl⟩ := hop
      rw [hy] at hmem
      simp only [optMem] at hmem
      rw [List.contains_eq_any_beq] at hmem
      have : l.any (y == ·) = true := List.any_of_mem hyl (by simp)
      rw [this] at hmem
      cases hmem
  · intro h
    rw [not_or] at h
    obtain ⟨hnil, hop⟩ := h
    refine ⟨by simpa using List.length_pos.mpr hnil, ?_⟩
    cases hx : x with
    | none => rfl
    | some v =>
      simp only [optMem]
      rw [List.contains_eq_any_beq]
      rw [List.any_eq_false]
      intro b hb
      simp only [beq_iff_eq]
      intro hvb
      exact hop ⟨v, hx, hvb ▸ hb⟩

theorem rowPasses_iff (context : QueryContext) (row : Row) :
    rowPasses context row = true ↔ keepSpec context row := by
  have hy := guard_true_iff context.years row.Ano
  have hm := guard_true_iff context.months row.Mes
  have hp := guard_true_iff context.produtos row.Produto
  have hc := guard_true_iff context.categorias row.Categoria
  have hr := guard_true_iff context.regioes row.Regiao
  unfold rowPasses keepSpec
  split_ifs with h1 h2 h3 h4 h5
  · simp only [Bool.false_eq_true, false_iff]
    exact fun hk => (hy.mp h1) hk.1
  · simp only [Bool.false_eq_true, false_iff]
    exact fun hk => (hm.mp h2) hk.2.1
  · simp only [Bool.false_eq_true, false_iff]
    exact fun hk => (hp.mp h3) hk.2.2.1
  · simp only [Bool.false_eq_true, false_iff]
    exact fun hk => (hc.mp h4) hk.2.2.2.1
  · simp only [Bool.false_eq_true, false_iff]
    exact fun hk => (hr.mp h5) hk.2.2.2.2
  · simp only [true_iff]
    refine ⟨?_, ?_, ?_, ?_, ?_⟩
    · exact not_not.mp (fun hn => h1 (hy.mpr hn))
    · exact not_not.mp (fun hn => h2 (hm.mpr hn))
    · exact not_not.mp (fun hn => h3 (hp.mpr hn))
    · exact not_not.mp (fun hn => h4 (hc.mpr hn))
    · exact not_not.mp (fun hn => h5 (hr.mpr hn))

/-! ## Lemmas: normalizeRow field invariants -/

theorem normStep_date_none (row : List (String × String)) (acc : Row)
    (e : String × String) (h : e.2 = "Data" → parseDate (lookupRaw row e.1) = none) :
    (normStep row acc e).Ano = acc.Ano ∧ (normStep row acc e).Mes = acc.Mes := by
  simp only [normStep]
  split_ifs with h1 h2 h3 h4 h5 h6 h7 h8
  · rw [h h1]
    exact ⟨rfl, rfl⟩
  all_goals simp

theorem normStep_quant_of_ne (row : List (String × String)) (acc : Row)
    (e : String × String) (h : ¬ e.2 = "Quantidade") :
    (normStep row acc e).Quantidade = acc.Quantidade := by
  simp only [normStep]
  split_ifs with h1 h2 h3 h4 h5 h6 h7
  · cases hp : parseDate (lookupRaw row e.1) <;> simp
  all_goals simp

theorem normStep_quant_set (row : List (String × String)) (acc : Row)
    (e : String × String) (h : e.2 = "Quantidade") :
    (normStep row acc e).Quantidade = some ((jsParseInt (lookupRaw row e.1)).getD 0) := by
  simp only [normStep]
  rw [if_neg (by rw [h]; decide), if_pos h]

theorem normFold_date_none (row : List (String × String)) :
    ∀ (hm : List (String × String)) (acc : Row),
    (∀ e ∈ hm, e.2 = "Data" → parseDate (lookupRaw row e.1) = none) →
    (hm.foldl (normStep row) acc).Ano = acc.Ano ∧
    (hm.foldl (normStep row) acc).Mes = acc.Mes := by
  intro hm
  induction hm with
  | nil => intro acc _; exact ⟨rfl, rfl⟩
  | cons e rest ih =>
    intro acc h
    rw [List.foldl_cons]
    have hstep := normStep_date_none row acc e (h e (List.mem_cons_self _ _))
    have hrest := ih (normStep row acc e)
      (fun x hx hxe => h x (List.mem_cons_of_mem _ hx) hxe)
    exact ⟨hrest.1.trans hstep.1, hrest.2.trans hstep.2⟩

theorem normFold_quant_preserve (row : List (String × String)) :
    ∀ (hm : List (String × String)) (acc : Row),
    (∀ e ∈ hm, ¬ e.2 = "Quantidade") →
    (hm.foldl (normStep row) acc).Quantidade = acc.Quantidade := by
  intro hm
  induction hm with
  | nil => intro acc _; rfl
  | cons e rest ih =>
    intro acc h
    rw [List.foldl_cons]
    rw [ih (normStep row acc e) (fun x hx => h x (List.mem_cons_of_mem _ hx))]
    exact normStep_quant_of_ne row acc e (h e (List.mem_cons_self _ _))

theorem normFold_quant_some (row : List (String × String)) :
    ∀ (hm : List (String × String)) (acc : Row),
    (∃ e ∈ hm, e.2 = "Quantidade") →
    ∃ n : Int, (hm.foldl (normStep row) acc).Quantidade = some n := by
  intro hm
  induction hm with
  | nil => rintro acc ⟨e, he, _⟩; cases he
  | cons e rest ih =>
    intro acc hex
    rw [List.foldl_cons]
    by_cases hrest : ∃ x ∈ rest, x.2 = "Quantidade"
    · exact ih (normStep row acc e) hrest
    · obtain ⟨x, hx, hxq⟩ := hex
      rcases List.mem_cons.mp hx with rfl | hx2
      · rw [normFold_quant_preserve row rest (normStep row acc x)
          (fun y hy hyq => hrest ⟨y, hy, hyq⟩)]
        exact ⟨_, normStep_quant_set row acc x hxq⟩
      · exact absurd ⟨x, hx2, hxq⟩ hrest

theorem normFold_quant_zero (row : List (String × String)) :
    ∀ (hm : List (String × String)) (acc : Row),
    (∃ e ∈ hm, e.2 = "Quantidade") →
    (∀ e ∈ hm, e.2 = "Quantidade" → jsParseInt (lookupRaw row e.1) = none) →
    (hm.foldl (normStep row) acc).Quantidade = some 0 := by
  intro hm
  induction hm with
  | nil => rintro acc ⟨e, he, _⟩; cases he
  | cons e rest ih =>
    intro acc hex hall
    rw [List.foldl_cons]
    by_cases hrest : ∃ x ∈ rest, x.2 = "Quantidade"
    · exact ih (normStep row acc e) hrest
        (fun x hx hxq => hall x (List.mem_cons_of_mem _ hx) hxq)
    · obtain ⟨x, hx, hxq⟩ := hex
      rcases List.mem_cons.mp hx with rfl | hx2
      · rw [normFold_quant_preserve row rest (normStep row acc x)
          (fun y hy hyq => hrest ⟨y, hy, hyq⟩)]
        rw [normStep_quant_set row acc x hxq]
        rw [hall x (List.mem_cons_self _ _) hxq]
        rfl
      · exact absurd ⟨x, hx2, hxq⟩ hrest

theorem normalizeRow_Quantidade (row hm : List (String × String)) :
    (normalizeRow row hm).Quantidade = (hm.foldl (normStep row) {}).Quantidade := by
  simp only [normalizeRow]
  split_ifs <;> rfl

theorem normalizeRow_Ano (row hm : List (String × String)) :
    (normalizeRow row hm).Ano = (hm.foldl (normStep row) {}).Ano := by
  simp only [normalizeRow]
  split_ifs <;> rfl

theorem normalizeRow_Mes (row hm : List (String × String)) :
    (normalizeRow row hm).Mes = (hm.foldl (normStep row) {}).Mes := by
  simp only [normalizeRow]
  split_ifs <;> rfl

/-! ## Claim theorems -/

/-- Claim C2 (confirmed): `filterData(rows, context)` keeps exactly the
rows whose `Ano`, `Mes`, `Produto`, `Categoria` and `Regiao` fields are
members of the corresponding context set whenever that set is non-empty
(an empty set imposes no constraint), the output is a sublist of the
input (order preserved, no row duplicated), and each kept row keeps its
exact multiplicity. -/
theorem C2_filterData_keeps_exactly (data : List Row) (context : QueryContext) :
    (filterData data context).Sublist data ∧
    (∀ r : Row, r ∈ filterData data context ↔ r ∈ data ∧ keepSpec context r) ∧
    (∀ r : Row, (filterData data context).count r =
      if keepSpec context r then data.count r else 0) := by
  refine ⟨?_, ?_, ?_⟩
  · show (data.filter (rowPasses context)).Sublist data
    exact List.filter_sublist data
  · intro r
    show r ∈ data.filter (rowPasses context) ↔ _
    rw [List.mem_filter]
    constructor
    · rintro ⟨h1, h2⟩
      exact ⟨h1, (rowPasses_iff context r).mp h2⟩
    · rintro ⟨h1, h2⟩
      exact ⟨h1, (rowPasses_iff context r).mpr h2⟩
  · intro r
    show (data.filter (rowPasses context)).count r = _
    rw [count_filter_eq]
    by_cases h : keepSpec context r
    · rw [if_pos h, if_pos ((rowPasses_iff context r).mpr h)]
    · rw [if_neg h, if_neg (fun hb => h ((rowPasses_iff context r).mp hb))]

/-- Claim C6 (counterexample): the raw header `"Qtd Vendida"` does NOT
normalize to `Quantidade`: its cleaned form `"qtd_vendida"` contains
the variant `"id"` of the earlier table entry `ID_Transacao`, which
wins by table order. -/
theorem C6_counterexample :
    normalizeHeader "Qtd Vendida" = "ID_Transacao" ∧
    ¬ normalizeHeader "Qtd Vendida" = "Quantidade" := by
  constructor
  · decide
  · decide

/-- Claim C6 (amended): the Header Normalizer cleans a header by
lowercasing, trimming and replacing every character outside
`[a-z0-9_]` by `_`, and the first canonical field in fixed table order
one of whose variants is a substring of the cleaned header wins; under
this rule `"Valor Total (R$)"` (cleaned `"valor_total__r__"`) maps to
`Receita_Total`, while `"Qtd Vendida"` (cleaned `"qtd_vendida"`) maps
to `ID_Transacao` — not `Quantidade` — because the variant `"id"` of
`ID_Transacao` occurs inside `"qtd_vendida"` and `ID_Transacao`
precedes `Quantidade` in the table. -/
theorem C6_amended :
    String.mk (cleanHeader "Valor Total (R$)") = "valor_total__r__" ∧
    String.mk (cleanHeader "Qtd Vendida") = "qtd_vendida" ∧
    normalizeHeader "Valor Total (R$)" = "Receita_Total" ∧
    normalizeHeader "Qtd Vendida" = "ID_Transacao" := by
  refine ⟨by decide, by decide, by decide, by decide⟩

/-- Claim C9 (counterexample): `Quantidade` is not always nonnegative:
the raw value `"-3"` is parsed by `parseInt` with its sign, so the
normalized row carries `Quantidade = -3 < 0`. -/
theorem C9_counterexample :
    (normalizeRow [("Qtd", "-3")] [("Qtd", "Quantidade")]).Quantidade = some (-3) ∧
    (-3 : Int) < 0 := by
  refine ⟨by decide, by decide⟩

/-- Claim C9 (amended): whenever some header maps to `Quantidade`, the
normalized row's `Quantidade` is a defined integer, and if every raw
value feeding it is non-numeric or absent (`parseInt` gives `NaN`) it
is `0`; the integer may be negative, since `parseInt` keeps the sign of
a negative raw value. -/
theorem C9_amended (row hm : List (String × String))
    (hq : ∃ e ∈ hm, e.2 = "Quantidade") :
    (∃ n : Int, (normalizeRow row hm).Quantidade = some n) ∧
    ((∀ e ∈ hm, e.2 = "Quantidade" → jsParseInt (lookupRaw row e.1) = none) →
      (normalizeRow row hm).Quantidade = some 0) := by
  constructor
  · rw [normalizeRow_Quantidade]
    exact normFold_quant_some row hm {} hq
  · intro hall
    rw [normalizeRow_Quantidade]
    exact normFold_quant_zero row hm {} hq hall

/-- Witness for C9 (amended) at the concrete row `{Qtd: "abc"}`. -/
theorem C9_amended_witness :
    (∃ n : Int, (normalizeRow [("Qtd", "abc")] [("Qtd", "Quantidade")]).Quantidade = some n) ∧
    (normalizeRow [("Qtd", "abc")] [("Qtd", "Quantidade")]).Quantidade = some 0 :=
  ⟨(C9_amended [("Qtd", "abc")] [("Qtd", "Quantidade")]
      ⟨("Qtd", "Quantidade"), by decide, rfl⟩).1,
   (C9_amended [("Qtd", "abc")] [("Qtd", "Quantidade")]
      ⟨("Qtd", "Quantidade"), by decide, rfl⟩).2 (by decide)⟩

/-- Claim C10 (confirmed): a normalized row all of whose `Data`-mapped
raw values fail to parse has `Ano` and `Mes` unset, and `filterData`
excludes it from the result whenever the context's years set (or months
set) is non-empty. -/
theorem C10_unparsed_date_excluded (row hm : List (String × String))
    (data : List Row) (context : QueryContext)
    (hd : ∀ e ∈ hm, e.2 = "Data" → parseDate (lookupRaw row e.1) = none)
    (hy : context.years ≠ [] ∨ context.months ≠ []) :
    normalizeRow row hm ∉ filterData data context := by
  intro hmem
  have hAno : (normalizeRow row hm).Ano = none := by
    rw [normalizeRow_Ano]
    exact (normFold_date_none row hm {} hd).1
  have hMes : (normalizeRow row hm).Mes = none := by
    rw [normalizeRow_Mes]
    exact (normFold_date_none row hm {} hd).2
  have hpass : rowPasses context (normalizeRow row hm) = true := by
    have hmem2 : normalizeRow row hm ∈ data.filter (rowPasses context) := hmem
    exact List.of_mem_filter hmem2
  have hks := (rowPasses_iff context _).mp hpass
  rcases hy with hys | hms
  · rcases hks.1 with hnil | hop
    · exact hys hnil
    · obtain ⟨y, hy2, _⟩ := hop
      rw [hAno] at hy2
      cases hy2
  · rcases hks.2.1 with hnil | hop
    · exact hms hnil
    · obtain ⟨y, hy2, _⟩ := hop
      rw [hMes] at hy2
      cases hy2

/-- Witness for C10 at a concrete unparseable date row and a year
filter. -/
theorem C10_witness :
    (∀ e ∈ [("Data", "Data")], e.2 = "Data" →
      parseDate (lookupRaw [("Data", "xx")] e.1) = none) ∧
    normalizeRow [("Data", "xx")] [("Data", "Data")] ∉
      filterData [normalizeRow [("Data", "xx")] [("Data", "Data")]]
        { years := [2023] } :=
  ⟨by decide,
   C10_unparsed_date_excluded [("Data", "xx")] [("Data", "Data")]
     [normalizeRow [("Data", "xx")] [("Data", "Data")]] { years := [2023] }
     (by decide) (Or.inl (by decide))⟩

/-- Claim C3 (counterexample): for `"05/03/2024"` (first group 05 ≤ 12)
the code takes the FIRST group as the month — `Mes = 5`, not the
day-first reading `Mes = 3` the claim asserts. -/
theorem C3_counterexample :
    (parseDate (some "05/03/2024")).map DateParts.month = some 5 ∧
    ¬ (parseDate (some "05/03/2024")).map DateParts.month = some 3 := by
  refine ⟨by decide, by decide⟩

/-- Claim C3 (amended): for every cell of the form `D/M/YYYY` or
`DD/MM/YYYY`, if the first numeric group is greater than 12 it is taken
as the day (and the second as the month); otherwise the MONTH-first
convention applies: the first group is the month and the second the
day. -/
theorem C3_amended (g1 g2 g3 : List Char)
    (h1d : g1.all Char.isDigit = true) (h1a : 1 ≤ g1.length) (h1b : g1.length ≤ 2)
    (h2d : g2.all Char.isDigit = true) (h2a : 1 ≤ g2.length) (h2b : g2.length ≤ 2)
    (h3d : g3.all Char.isDigit = true) (h3c : g3.length = 4) :
    parseDate (some (String.mk (g1 ++ '/' :: (g2 ++ '/' :: g3)))) =
      some { date := String.mk ((toString (digitsToNat g3 : Int)).toList ++ '-' ::
               (padTo2 (toString (if (digitsToNat g1 : Int) > 12 then (digitsToNat g2 : Int)
                 else (digitsToNat g1 : Int))).toList ++ '-' ::
               padTo2 (toString (if (digitsToNat g1 : Int) > 12 then (digitsToNat g1 : Int)
                 else (digitsToNat g2 : Int))).toList)),
             year := (digitsToNat g3 : Int),
             month := if (digitsToNat g1 : Int) > 12 then (digitsToNat g2 : Int)
               else (digitsToNat g1 : Int) } := by
  have hdig : ∀ (g : List Char), g.all Char.isDigit = true → ∀ c ∈ g,
      c ≠ '-' ∧ c ≠ '/' ∧ jsIsWs c = false := by
    intro g hg c hc
    have hcd : c.isDigit = true := List.all_eq_true.mp hg c hc
    refine ⟨?_, ?_, ?_⟩
    · intro he
      rw [he] at hcd
      exact absurd hcd (by decide)
    · intro he
      rw [he] at hcd
      exact absurd hcd (by decide)
    · revert hcd
      unfold Char.isDigit jsIsWs
      intro hcd
      rw [Bool.and_eq_true] at hcd
      obtain ⟨hlo, _⟩ := hcd
      have hlo2 : '0' ≤ c := of_decide_eq_true hlo
      simp only [Bool.or_eq_false_iff, decide_eq_false_iff_not]
      refine ⟨⟨⟨?_, ?_⟩, ?_⟩, ?_⟩ <;> intro he <;> rw [he] at hlo2 <;>
        exact absurd hlo2 (by decide)
  have hd1 := hdig g1 h1d
  have hd2 := hdig g2 h2d
  have hd3 := hdig g3 h3d
  have hmemdecomp : ∀ c ∈ g1 ++ '/' :: (g2 ++ '/' :: g3),
      c ∈ g1 ∨ c = '/' ∨ c ∈ g2 ∨ c ∈ g3 := by
    intro c hc
    rcases List.mem_append.mp hc with h | h
    · exact Or.inl h
    · rcases List.mem_cons.mp h with h | h
      · exact Or.inr (Or.inl h)
      · rcases List.mem_append.mp h with h | h
        · exact Or.inr (Or.inr (Or.inl h))
        · rcases List.mem_cons.mp h with h | h
          · exact Or.inr (Or.inl h)
          · exact Or.inr (Or.inr (Or.inr h))
  have hnws : ∀ c ∈ g1 ++ '/' :: (g2 ++ '/' :: g3), jsIsWs c = false := by
    intro c hc
    rcases hmemdecomp c hc with h | h | h | h
    · exact (hd1 c h).2.2
    · rw [h]; decide
    · exact (hd2 c h).2.2
    · exact (hd3 c h).2.2
  have hdash : '-' ∉ g1 ++ '/' :: (g2 ++ '/' :: g3) := by
    intro hc
    rcases hmemdecomp _ hc with h | h | h | h
    · exact (hd1 _ h).1 rfl
    · exact absurd h (by decide)
    · exact (hd2 _ h).1 rfl
    · exact (hd3 _ h).1 rfl
  have hs1 : '/' ∉ g1 := fun hc => (hd1 _ hc).2.1 rfl
  have hs2 : '/' ∉ g2 := fun hc => (hd2 _ hc).2.1 rfl
  have hs3 : '/' ∉ g3 := fun hc => (hd3 _ hc).2.1 rfl
  have hne : ¬ (String.mk (g1 ++ '/' :: (g2 ++ '/' :: g3)) = "") := by
    intro h
    have h2 : g1 ++ '/' :: (g2 ++ '/' :: g3) = [] := congrArg String.data h
    have h3 := congrArg List.length h2
    simp at h3
  simp only [parseDate]
  rw [if_neg hne]
  have htl : (String.mk (g1 ++ '/' :: (g2 ++ '/' :: g3))).toList =
      g1 ++ '/' :: (g2 ++ '/' :: g3) := rfl
  rw [htl, trimChars_eq_self _ hnws]
  have hiso : isoMatch (g1 ++ '/' :: (g2 ++ '/' :: g3)) = none := by
    unfold isoMatch
    rw [splitOnChar_not_mem hdash]
  rw [hiso]
  show slashMatch (g1 ++ '/' :: (g2 ++ '/' :: g3)) = _
  unfold slashMatch
  rw [splitOnChar_append (g2 ++ '/' :: g3) hs1, splitOnChar_append g3 hs2,
    splitOnChar_not_mem hs3]
  show slashMake g1 g2 g3 = _
  unfold slashMake
  have hcond : (decide (1 ≤ g1.length) && decide (g1.length ≤ 2) && g1.all Char.isDigit &&
      decide (1 ≤ g2.length) && decide (g2.length ≤ 2) && g2.all Char.isDigit &&
      decide (g3.length = 4) && g3.all Char.isDigit) = true := by
    simp [h1a, h1b, h1d, h2a, h2b, h2d, h3c, h3d]
  rw [if_pos hcond]

/-- Witness for C3 (amended) at the concrete cell `"05/03/2024"`:
month-first applies, so the month is 5 and the date string is
`2024-05-03`. -/
theorem C3_amended_witness :
    parseDate (some "05/03/2024") =
      some { date := "2024-05-03", year := 2024, month := 5 } := by
  have h := C3_amended ['0', '5'] ['0', '3'] ['2', '0', '2', '4']
    (by decide) (by decide) (by decide) (by decide) (by decide) (by decide)
    (by decide) (by decide)
  have e1 : String.mk (['0', '5'] ++ '/' :: (['0', '3'] ++ '/' :: ['2', '0', '2', '4'])) =
      "05/03/2024" := by decide
  rw [e1] at h
  rw [h]
  decide

/-- Claim C5 (code bug, evaluation at the failing input): the growth
division is NOT guarded.  With two months of revenues 0 (earlier) and
100 (later) and comparison requested, the code computes
`(100 - 0) / 0 * 100 = Infinity` and `crescimento_pct` becomes the
string `"Infinity"` — the non-finite value propagates, contradicting
the spec's requirement of an explicit guard. -/
theorem C5_division_by_zero_unguarded :
    (analyzeData [{ Mes := some 1, Receita_Total := some 0 },
                  { Mes := some 2, Receita_Total := some 100 }]
      { comparison := true }).toOption.bind Analysis.variacao_mensal =
      some { crescimento_pct := "Infinity", periodo_anterior := "janeiro",
             periodo_atual := "fevereiro" } := by
  decide

/-- Claim C8 (confirmed): when `parseQuery` recognizes no year token,
no month name and no product/category/region entity, the resulting
`QueryContext` has empty `years`, `months`, `produtos`, `categorias`
and `regioes`, and `filterData` with that context is the identity. -/
theorem C8_no_tokens_filter_identity (q : String) (data : List Row)
    (hy : yearTokens q = [])
    (hm : monthsFound (jsToLower q) = [])
    (hp : entitiesFound (jsToLower q) (uniqueVals Row.Produto data) = [])
    (hc : entitiesFound (jsToLower q) (uniqueVals Row.Categoria data) = [])
    (hr : entitiesFound (jsToLower q) (uniqueVals Row.Regiao data) = []) :
    (parseQuery q data).years = [] ∧ (parseQuery q data).months = [] ∧
    (parseQuery q data).produtos = [] ∧ (parseQuery q data).categorias = [] ∧
    (parseQuery q data).regioes = [] ∧
    filterData data (parseQuery q data) = data := by
  have h1 : (parseQuery q data).years = [] := by
    show (yearTokens q).map _ = []
    rw [hy]
    rfl
  have h2 : (parseQuery q data).months = [] := hm
  have h3 : (parseQuery q data).produtos = [] := hp
  have h4 : (parseQuery q data).categorias = [] := hc
  have h5 : (parseQuery q data).regioes = [] := hr
  have hall : ∀ r ∈ data, rowPasses (parseQuery q data) r = true := by
    intro r _
    unfold rowPasses
    rw [h1, h2, h3, h4, h5]
    simp
  refine ⟨h1, h2, h3, h4, h5, ?_⟩
  show data.filter _ = data
  exact List.filter_eq_self.mpr hall

/-- Witness for C8 at the query `"ola"` against a one-row dataset with
a product name it does not mention. -/
theorem C8_witness :
    yearTokens "ola" = [] ∧
    (parseQuery "ola" [{ Produto := some "Caneta" }]).years = [] ∧
    filterData [{ Produto := some "Caneta" }]
        (parseQuery "ola" [{ Produto := some "Caneta" }]) =
      [{ Produto := some "Caneta" }] :=
  ⟨by decide,
   (C8_no_tokens_filter_identity "ola" [{ Produto := some "Caneta" }]
     (by decide) (by decide) (by decide) (by decide) (by decide)).1,
   (C8_no_tokens_filter_identity "ola" [{ Produto := some "Caneta" }]
     (by decide) (by decide) (by decide) (by decide) (by decide)).2.2.2.2.2⟩

/-- Claim C7 (counterexample): `analyzeData` does NOT return a
well-formed result for every input: with comparison requested and a
dataset containing a row with month 1 and a row with no parsed month,
the month-name conversion dereferences `undefined` and the call throws
a `TypeError` instead of returning an `AnalysisResult`. -/
theorem C7_counterexample :
    analyzeData [({ Mes := some 1 } : Row), ({} : Row)] { comparison := true } =
      .error "TypeError: Cannot read properties of undefined" := by
  decide

/-- Claim C7 (amended): for the empty row sequence and any context,
`analyzeData` returns total record count 0, the explicit
"no data for the given filters" marker, zero totals and no groups, and
performs no further computation; and `analyzeData` returns a
well-formed result for every input in which every row has a parsed
month whenever comparison is requested — but not for every degenerate
input (see the counterexample: an unset month plus a comparison request
raises a `TypeError`). -/
theorem C7_amended :
    (∀ context : QueryContext,
      analyzeData [] context =
        .ok { total_registros := 0, receita_total := 0, quantidade_total := 0,
              ticket_medio := 0, periodo_analizado := "", grupos := [],
              erro := some "Nenhum dado encontrado para os filtros especificados" }) ∧
    (∀ (data : List Row) (context : QueryContext),
      (context.comparison = true → ∀ r ∈ data, r.Mes.isSome = true) →
      ∃ a, analyzeData data context = .ok a) := by
  constructor
  · intro context
    rfl
  · intro data context hmes
    by_cases hlen : data.length = 0
    · simp only [analyzeData]
      rw [if_pos hlen]
      exact ⟨_, rfl⟩
    · simp only [analyzeData]
      rw [if_neg hlen]
      by_cases hcmp : (context.comparison &&
          decide ((jsSortOptInt (firstSeen (data.map Row.Mes))).length > 1)) = true
      · rw [if_pos hcmp]
        have hcompT : context.comparison = true := by
          cases hc : context.comparison
          · rw [hc] at hcmp
            simp at hcmp
          · rfl
        have hkeys : ∀ p ∈ byMonthList data,
            ∃ y, (monthKeyName p.1).map
              (fun nm => ({ mes := nm, receita := p.2.receita,
                            quantidade := p.2.quantidade } : MonthEntry)) = .ok y := by
          intro p hp
          have hfst : p.1 ∈ (byMonthList data).map Prod.fst :=
            List.mem_map_of_mem _ hp
          have hfs : p.1 ∈ firstSeen (data.map Row.Mes) := by
            have hbm : (byMonthList data).map Prod.fst = firstSeen (data.map Row.Mes) := by
              unfold byMonthList
              exact groupFold_keys _ _ _ _
            rw [hbm] at hfst
            exact hfst
          have hmem : p.1 ∈ data.map Row.Mes := mem_of_mem_firstSeen _ _ hfs
          obtain ⟨r, hr, hrm⟩ := List.mem_map.mp hmem
          have hsome : r.Mes.isSome = true := hmes hcompT r hr
          obtain ⟨m, hmm⟩ := Option.isSome_iff_exists.mp hsome
          rw [← hrm, hmm]
          exact ⟨{ mes := mesNamePT m, receita := p.2.receita,
                   quantidade := p.2.quantidade }, rfl⟩
        obtain ⟨l₂, hl₂⟩ := mapExcept_ok _ (byMonthList data) hkeys
        rw [hl₂]
        exact ⟨_, rfl⟩
      · rw [if_neg hcmp]
        exact ⟨_, rfl⟩

/-- Witness for C7 (amended): the empty dataset with the empty context,
and a one-row dataset with a parsed month under a comparison request. -/
theorem C7_witness :
    (analyzeData [] {} =
      .ok { total_registros := 0, receita_total := 0, quantidade_total := 0,
            ticket_medio := 0, periodo_analizado := "", grupos := [],
            erro := some "Nenhum dado encontrado para os filtros especificados" }) ∧
    (∃ a, analyzeData [{ Mes := some 1 }] { comparison := true } = .ok a) :=
  ⟨C7_amended.1 {},
   C7_amended.2 [{ Mes := some 1 }] { comparison := true } (by decide)⟩

theorem mesSortKey_name (m : Int) (h1 : 1 ≤ m) (h2 : m ≤ 12) :
    mesSortKey (mesNamePT m) = m := by
  interval_cases m <;> decide

/-- Claim C4 (confirmed): when comparison is requested and the data
contains exactly two distinct months `m1 < m2` — in either order of
first appearance in the data — with total revenues 1000 for `m1` and
1200 for `m2`, `analyzeData` reports `crescimento_pct = "20.00"`: the
monthly buckets are sorted chronologically, and the growth between the
two chronologically last buckets is rounded to two decimals. -/
theorem C4_growth_twenty (data : List Row) (context : QueryContext) (m1 m2 : Int)
    (hc : context.comparison = true)
    (hms : firstSeen (data.map Row.Mes) = [some m1, some m2] ∨
           firstSeen (data.map Row.Mes) = [some m2, some m1])
    (hb1 : 1 ≤ m1) (hb2 : m1 ≤ 12) (hb3 : 1 ≤ m2) (hb4 : m2 ≤ 12)
    (hlt : m1 < m2)
    (hr1 : monthRevenue data m1 = 1000) (hr2 : monthRevenue data m2 = 1200) :
    ∃ a, analyzeData data context = .ok a ∧
      a.variacao_mensal.map Variacao.crescimento_pct = some "20.00" := by
  have hst1 : (collect Row.Mes monthUpd (some m1) data ({} : MonthStats)).receita = 1000 := by
    rw [collect_month_receita]
    exact hr1
  have hst2 : (collect Row.Mes monthUpd (some m2) data ({} : MonthStats)).receita = 1200 := by
    rw [collect_month_receita]
    exact hr2
  have hle : (decide (mesSortKey (mesNamePT m1) ≤ mesSortKey (mesNamePT m2))) = true := by
    rw [mesSortKey_name m1 hb1 hb2, mesSortKey_name m2 hb3 hb4]
    exact decide_eq_true (le_of_lt hlt)
  have hnle : ¬ ((decide (mesSortKey (mesNamePT m2) ≤ mesSortKey (mesNamePT m1))) = true) := by
    rw [mesSortKey_name m2 hb3 hb4, mesSortKey_name m1 hb1 hb2]
    rw [decide_eq_false (by omega : ¬ m2 ≤ m1)]
    exact Bool.false_ne_true
  rcases hms with hms | hms
  · have hne : ¬ data.length = 0 := by
      intro h0
      rw [List.length_eq_zero] at h0
      rw [h0] at hms
      simp [firstSeen_nil] at hms
    have hlen2 : (jsSortOptInt [some m1, some m2]).length = 2 := by
      unfold jsSortOptInt
      rw [List.length_append, length_stableSort]
      rfl
    have hbm : byMonthList data =
        [(some m1, collect Row.Mes monthUpd (some m1) data {}),
         (some m2, collect Row.Mes monthUpd (some m2) data {})] := by
      unfold byMonthList
      rw [groupFold_eq, hms]
      rfl
    simp only [analyzeData]
    rw [if_neg hne, hms]
    have hcond : (context.comparison &&
        decide ((jsSortOptInt [some m1, some m2]).length > 1)) = true := by
      rw [hc, hlen2]
      decide
    rw [if_pos hcond, hbm]
    have hsorted : stableSort (fun a b => decide (mesSortKey a.mes ≤ mesSortKey b.mes))
        [({ mes := mesNamePT m1,
            receita := (collect Row.Mes monthUpd (some m1) data {}).receita,
            quantidade := (collect Row.Mes monthUpd (some m1) data {}).quantidade } : MonthEntry),
         ({ mes := mesNamePT m2,
            receita := (collect Row.Mes monthUpd (some m2) data {}).receita,
            quantidade := (collect Row.Mes monthUpd (some m2) data {}).quantidade } : MonthEntry)] =
        [({ mes := mesNamePT m1,
            receita := (collect Row.Mes monthUpd (some m1) data {}).receita,
            quantidade := (collect Row.Mes monthUpd (some m1) data {}).quantidade } : MonthEntry),
         ({ mes := mesNamePT m2,
            receita := (collect Row.Mes monthUpd (some m2) data {}).receita,
            quantidade := (collect Row.Mes monthUpd (some m2) data {}).quantidade } : MonthEntry)] := by
      simp only [stableSort, insertDesc]
      rw [if_pos hle]
    refine ⟨_, rfl, ?_⟩
    show (variacaoOf (stableSort (fun a b => decide (mesSortKey a.mes ≤ mesSortKey b.mes))
        [({ mes := mesNamePT m1,
            receita := (collect Row.Mes monthUpd (some m1) data {}).receita,
            quantidade := (collect Row.Mes monthUpd (some m1) data {}).quantidade } : MonthEntry),
         ({ mes := mesNamePT m2,
            receita := (collect Row.Mes monthUpd (some m2) data {}).receita,
            quantidade := (collect Row.Mes monthUpd (some m2) data {}).quantidade } : MonthEntry)])).map
        Variacao.crescimento_pct = some "20.00"
    rw [hsorted]
    show some (growthPct (collect Row.Mes monthUpd (some m2) data {}).receita
        (collect Row.Mes monthUpd (some m1) data {}).receita) = some "20.00"
    rw [hst1, hst2]
    decide
  · have hne : ¬ data.length = 0 := by
      intro h0
      rw [List.length_eq_zero] at h0
      rw [h0] at hms
      simp [firstSeen_nil] at hms
    have hlen2 : (jsSortOptInt [some m2, some m1]).length = 2 := by
      unfold jsSortOptInt
      rw [List.length_append, length_stableSort]
      rfl
    have hbm : byMonthList data =
        [(some m2, collect Row.Mes monthUpd (some m2) data {}),
         (some m1, collect Row.Mes monthUpd (some m1) data {})] := by
      unfold byMonthList
      rw [groupFold_eq, hms]
      rfl
    simp only [analyzeData]
    rw [if_neg hne, hms]
    have hcond : (context.comparison &&
        decide ((jsSortOptInt [some m2, some m1]).length > 1)) = true := by
      rw [hc, hlen2]
      decide
    rw [if_pos hcond, hbm]
    have hsorted : stableSort (fun a b => decide (mesSortKey a.mes ≤ mesSortKey b.mes))
        [({ mes := mesNamePT m2,
            receita := (collect Row.Mes monthUpd (some m2) data {}).receita,
            quantidade := (collect Row.Mes monthUpd (some m2) data {}).quantidade } : MonthEntry),
         ({ mes := mesNamePT m1,
            receita := (collect Row.Mes monthUpd (some m1) data {}).receita,
            quantidade := (collect Row.Mes monthUpd (some m1) data {}).quantidade } : MonthEntry)] =
        [({ mes := mesNamePT m1,
            receita := (collect Row.Mes monthUpd (some m1) data {}).receita,
            quantidade := (collect Row.Mes monthUpd (some m1) data {}).quantidade } : MonthEntry),
         ({ mes := mesNamePT m2,
            receita := (collect Row.Mes monthUpd (some m2) data {}).receita,
            quantidade := (collect Row.Mes monthUpd (some m2) data {}).quantidade } : MonthEntry)] := by
      simp only [stableSort, insertDesc]
      rw [if_neg hnle]
    refine ⟨_, rfl, ?_⟩
    show (variacaoOf (stableSort (fun a b => decide (mesSortKey a.mes ≤ mesSortKey b.mes))
        [({ mes := mesNamePT m2,
            receita := (collect Row.Mes monthUpd (some m2) data {}).receita,
            quantidade := (collect Row.Mes monthUpd (some m2) data {}).quantidade } : MonthEntry),
         ({ mes := mesNamePT m1,
            receita := (collect Row.Mes monthUpd (some m1) data {}).receita,
            quantidade := (collect Row.Mes monthUpd (some m1) data {}).quantidade } : MonthEntry)])).map
        Variacao.crescimento_pct = some "20.00"
    rw [hsorted]
    show some (growthPct (collect Row.Mes monthUpd (some m2) data {}).receita
        (collect Row.Mes monthUpd (some m1) data {}).receita) = some "20.00"
    rw [hst1, hst2]
    decide

/-- Witness for C4 at a concrete newest-first dataset: the February row
(revenue 1200) appears before the January row (revenue 1000), so the
later month is first-seen and the sort reorders the buckets. -/
theorem C4_witness :
    firstSeen (([{ Mes := some 2, Receita_Total := some 1200 },
                 { Mes := some 1, Receita_Total := some 1000 }] : List Row).map Row.Mes) =
      [some 2, some 1] ∧
    (∃ a, analyzeData [{ Mes := some 2, Receita_Total := some 1200 },
                       { Mes := some 1, Receita_Total := some 1000 }]
        { comparison := true } = .ok a ∧
      a.variacao_mensal.map Variacao.crescimento_pct = some "20.00") :=
  ⟨by decide,
   C4_growth_twenty
     [{ Mes := some 2, Receita_Total := some 1200 },
      { Mes := some 1, Receita_Total := some 1000 }]
     { comparison := true } 1 2 rfl (Or.inr (by decide)) (by decide) (by decide)
     (by decide) (by decide) (by decide) (by decide) (by decide)⟩

/-- Claim C1 (counterexample): with `topN = 0` and comparison requested
(`0` is falsy in JS, so the slice guard is skipped) the full group list
is returned: on a one-product dataset `grupos` has length 1 > 0 = N,
refuting the claimed bound for every `N`. -/
theorem C1_counterexample :
    (analyzeData [{ Produto := some "A", Receita_Total := some 5 }]
        { topN := some 0, comparison := true }).toOption.map
      (fun a => a.grupos.length) = some 1 ∧
    ¬ ((1 : Int) ≤ 0) := by
  refine ⟨by decide, by decide⟩

/-- Claim C1 (amended): for every row sequence and every context with
`topN = N` for a POSITIVE `N`, the `grupos` list of a successful
`analyzeData` call has length at most `N`, is sorted by summed revenue
(`receita_total`) descending, and equal-revenue groups keep the order
in which their keys were first seen in the input data (their name
sequence is a subsequence of the first-seen key order). -/
theorem C1_amended (data : List Row) (context : QueryContext) (N : Int) (a : Analysis)
    (hN : context.topN = some N) (h1 : 1 ≤ N)
    (ha : analyzeData data context = .ok a) :
    ((a.grupos.length : Int) ≤ N) ∧
    a.grupos.Pairwise (fun g1 g2 => g2.receita_total ≤ g1.receita_total) ∧
    (∀ r : ℚ, ((a.grupos.filter (fun g => g.receita_total == r)).map Grupo.nome).Sublist
      (firstSeen (data.map (groupKeyOf (groupDimension context))))) := by
  by_cases hlen : data.length = 0
  · simp only [analyzeData] at ha
    rw [if_pos hlen] at ha
    have hEq := Except.ok.inj ha
    subst hEq
    refine ⟨by simp; omega, by simp, ?_⟩
    intro r
    simp only [List.filter_nil, List.map_nil]
    exact List.nil_sublist _
  · have hT : jsTruthyTopN context.topN = true := by
      rw [hN]
      simp only [jsTruthyTopN]
      have : N ≠ 0 := by omega
      simpa using this
    simp only [analyzeData] at ha
    rw [if_neg hlen] at ha
    have hcond1 : (jsTruthyTopN context.topN || context.comparison) = true := by
      rw [hT]
      rfl
    rw [if_pos hcond1, if_pos hT, hN] at ha
    have hgetD : (some N).getD 0 = N := rfl
    rw [hgetD] at ha
    have hslice : jsSlice0 N (stableSort (fun a b => decide (b.receita_total ≤ a.receita_total))
        ((gruposUnsorted data (groupDimension context)).map pairToGrupo)) =
        (stableSort (fun a b => decide (b.receita_total ≤ a.receita_total))
          ((gruposUnsorted data (groupDimension context)).map pairToGrupo)).take N.toNat := by
      unfold jsSlice0
      rw [if_pos (by omega : (0 : Int) ≤ N)]
    rw [hslice] at ha
    have hgr : a.grupos = (stableSort (fun a b => decide (b.receita_total ≤ a.receita_total))
        ((gruposUnsorted data (groupDimension context)).map pairToGrupo)).take N.toNat := by
      by_cases hcmp : (context.comparison &&
          decide ((jsSortOptInt (firstSeen (data.map Row.Mes))).length > 1)) = true
      · rw [if_pos hcmp] at ha
        cases hmap : mapExcept
            (fun p => (monthKeyName p.1).map
              (fun nm => ({ mes := nm, receita := p.2.receita,
                            quantidade := p.2.quantidade } : MonthEntry)))
            (byMonthList data) with
        | error e =>
          rw [hmap] at ha
          exact Except.noConfusion ha
        | ok raw =>
          rw [hmap] at ha
          have hEq := Except.ok.inj ha
          rw [← hEq]
      · rw [if_neg hcmp] at ha
        have hEq := Except.ok.inj ha
        rw [← hEq]
    have htot : ∀ x y : Grupo, (decide (y.receita_total ≤ x.receita_total)) = true ∨
        (decide (x.receita_total ≤ y.receita_total)) = true := by
      intro x y
      rcases le_total y.receita_total x.receita_total with h | h
      · exact Or.inl (decide_eq_true h)
      · exact Or.inr (decide_eq_true h)
    have htrans : ∀ x y z : Grupo, (decide (y.receita_total ≤ x.receita_total)) = true →
        (decide (z.receita_total ≤ y.receita_total)) = true →
        (decide (z.receita_total ≤ x.receita_total)) = true := by
      intro x y z hxy hyz
      exact decide_eq_true (le_trans (of_decide_eq_true hyz) (of_decide_eq_true hxy))
    refine ⟨?_, ?_, ?_⟩
    · have h2 : a.grupos.length ≤ N.toNat := by
        rw [hgr]
        exact List.length_take_le _ _
      omega
    · have hpw := pairwise_stableSort
        (fun a b : Grupo => decide (b.receita_total ≤ a.receita_total)) htot htrans
        ((gruposUnsorted data (groupDimension context)).map pairToGrupo)
      have hpw2 := List.Pairwise.sublist (hgr ▸ List.take_sublist N.toNat _) hpw
      exact hpw2.imp (fun h => of_decide_eq_true h)
    · intro r
      have hp : ∀ x y : Grupo, (x.receita_total == r) = true →
          (decide (y.receita_total ≤ x.receita_total)) = false →
          (y.receita_total == r) = false := by
        intro x y hx hxy
        have hx2 : x.receita_total = r := by
          have := of_decide_eq_true hx
          exact this
        have hlt2 : x.receita_total < y.receita_total := by
          have := of_decide_eq_false hxy
          exact lt_of_not_le this
        have hne2 : y.receita_total ≠ r := by
          rw [← hx2]
          exact ne_of_gt hlt2
        simpa using hne2
      have s1 : (a.grupos.filter (fun g => g.receita_total == r)).Sublist
          ((stableSort (fun a b => decide (b.receita_total ≤ a.receita_total))
            ((gruposUnsorted data (groupDimension context)).map pairToGrupo)).filter
            (fun g => g.receita_total == r)) := by
        rw [hgr]
        exact List.Sublist.filter _ (List.take_sublist _ _)
      rw [filter_stableSort _ _ hp] at s1
      have s2 : ((gruposUnsorted data (groupDimension context)).map pairToGrupo).filter
          (fun g => g.receita_total == r) |>.Sublist
          ((gruposUnsorted data (groupDimension context)).map pairToGrupo) :=
        List.filter_sublist _
      have s3 := (s1.trans s2).map Grupo.nome
      have hkeys : ((gruposUnsorted data (groupDimension context)).map pairToGrupo).map
          Grupo.nome = firstSeen (data.map (groupKeyOf (groupDimension context))) := by
        rw [List.map_map]
        have hcomp : (Grupo.nome ∘ pairToGrupo) = Prod.fst := by
          funext p
          rfl
        rw [hcomp]
        unfold gruposUnsorted
        exact groupFold_keys _ _ _ _
      rw [hkeys] at s3
      exact s3

/-- Witness for C1 (amended) at a one-row dataset with `topN = 2`. -/
theorem C1_witness :
    (1 : Int) ≤ 2 ∧
    analyzeData [{ Produto := some "B", Receita_Total := some 5 }] { topN := some 2 } =
      .ok { total_registros := 1, receita_total := 5, quantidade_total := 0,
            ticket_medio := 5, periodo_analizado := "undefined/undefined",
            grupos := [{ nome := "B", receita_total := 5, quantidade_total := 0,
                         ticket_medio := 5 }],
            grupo_por := some "Produto" } ∧
    (((({ total_registros := 1, receita_total := 5, quantidade_total := 0,
          ticket_medio := 5, periodo_analizado := "undefined/undefined",
          grupos := [{ nome := "B", receita_total := 5, quantidade_total := 0,
                       ticket_medio := 5 }],
          grupo_por := some "Produto" } : Analysis).grupos.length : Int)) ≤ 2) :=
  ⟨by decide, by decide,
   (C1_amended [{ Produto := some "B", Receita_Total := some 5 }] { topN := some 2 } 2
     { total_registros := 1, receita_total := 5, quantidade_total := 0,
       ticket_medio := 5, periodo_analizado := "undefined/undefined",
       grupos := [{ nome := "B", receita_total := 5, quantidade_total := 0,
                    ticket_medio := 5 }],
       grupo_por := some "Produto" }
     rfl (by decide) (by decide)).1⟩

end Alphabot
